import Mathlib

/-!
Remote provider of the cache package.

A shallow embedding of `cache/remote_provider.go`: the single fetch
(`Resolve`, `Fetch`, `fetchRequest`), the batch fetch (`FetchMulti`) and the
construction of the HTTP client from a `RemoteOption`.

Conventions of the embedding.

* A Go value that may be `nil` (a pointer, a slice, an `error`) is an `Option`.
* A Go `map[string]V` is an association list without duplicate keys (`GoMap`).
* The normalization of the `Provider` (`Normalize`, `NormalizeMulti`) is a
  function of the key.
* The `Resolver`, the `http.RoundTripper` and the clock may answer the same
  arguments differently from call to call: their methods take the occasion of
  the call (`occ`) as a further argument. In a batch the goroutine started for
  the key at position `i` of the normalized keys calls at occasion `i`, so the
  fetches of a batch are independent of each other, also for equal keys.
* Every function also returns the list of calls it made to its collaborators
  (`Event`), so that "is called", "is never read" and "how often" can be stated.
* The goroutines of `FetchMulti` send one message each; the order in which the
  `select` loop receives them is a parameter (`sched`), and every theorem about
  `FetchMulti` holds for every such order.
-/

namespace cache

/-! ## Library values: errors, requests, responses -/

/-- A byte slice. -/
abbrev Bytes := List Nat

/-- A non-nil Go `error`: either a plain error with a message (`errors.New`, or
any error produced by a collaborator), or an error wrapped with a label
(`errors.Wrap`). -/
inductive GoError where
  | new (msg : String)
  | wrap (cause : GoError) (label : String)
  deriving DecidableEq, Repr

/-- The method `Error()`: a wrapped error prints its label, a colon and its
cause. -/
def GoError.Error : GoError → String
  | .new msg => msg
  | .wrap cause label => label ++ ": " ++ cause.Error

/-- `errors.New(msg)`. -/
def errors.New (msg : String) : Option GoError := some (GoError.new msg)

/-- `errors.Wrap(err, message)`: nil stays nil. -/
def errors.Wrap (err : Option GoError) (message : String) : Option GoError :=
  match err with
  | none => none
  | some e => some (GoError.wrap e message)

deriving instance DecidableEq for Except

/-- The part of `*http.Request` the package looks at: `r.URL.String()`, and
the method as a stand-in for what a template carries. -/
structure Request where
  Method : String
  URL : String
  deriving DecidableEq, Repr

/-- The field `resp.Body`: the bytes the stream delivers, and the error, if
any, that ends the stream before its end. -/
structure Body where
  data : Bytes
  err : Option GoError
  deriving DecidableEq, Repr

/-- `io.ReadAll`: the bytes read (never a nil slice) and the error of the
stream. -/
def io.ReadAll (b : Body) : Option Bytes × Option GoError :=
  (some b.data, b.err)

/-- The part of `*http.Response` the package looks at. -/
structure Response where
  Status : String
  StatusCode : Int
  Body : Body
  deriving DecidableEq, Repr

/-- `http.StatusOK`. -/
def StatusOK : Int := 200

/-- `time.Second`, in nanoseconds (a `time.Duration`). -/
def Second : Int := 1000000000

/-- `http.RoundTripper`. -/
structure RoundTripper where
  RoundTrip : Nat → Request → Except GoError Response

/-- `http.Client`, with the two fields the package sets. -/
structure Client where
  Transport : RoundTripper
  Timeout : Int

/-- `(*http.Client).Do`, at the occasion `occ`: one round trip on the transport
of the client. -/
def Client.Do (c : Client) (occ : Nat) (r : Request) : Except GoError Response :=
  c.Transport.RoundTrip occ r

/-- What the package reads from its surroundings: `http.DefaultTransport`, and
the value `time.Since(now)` has after the round trip of a request made at an
occasion. -/
structure World where
  DefaultTransport : RoundTripper
  since : Nat → Request → Int

/-! ## Maps -/

/-- A Go `map[string]V`. -/
abbrev GoMap (V : Type) := List (String × V)

/-- The assignment `m[k] = v`. -/
def GoMap.set {V : Type} : GoMap V → String → V → GoMap V
  | [], k, v => [(k, v)]
  | (k', v') :: t, k, v => if k' = k then (k, v) :: t else (k', v') :: GoMap.set t k v

/-- The lookup `m[k]`, with `none` for an absent key. -/
def GoMap.get? {V : Type} : GoMap V → String → Option V
  | [], _ => none
  | (k', v') :: t, k => if k' = k then some v' else GoMap.get? t k

/-- The keys of a map. -/
def GoMap.keys {V : Type} (m : GoMap V) : List String := m.map Prod.fst

/-- The number of entries, `len(m)`. -/
def GoMap.len {V : Type} (m : GoMap V) : Nat := m.length

/-! ## multierror -/

/-- `multierror.Error`: the list of the causes. -/
structure multierror.Error where
  Errors : List GoError
  deriving DecidableEq, Repr

/-- `multierror.Append(err, e)` for one error `e` that is not itself a
`*multierror.Error`: a nil `err` becomes an empty one, a nil `e` is skipped. -/
def multierror.Append (err : Option multierror.Error) (e : Option GoError) :
    Option multierror.Error :=
  let base : multierror.Error := match err with
    | none => ⟨[]⟩
    | some m => m
  match e with
  | none => some base
  | some x => some ⟨base.Errors ++ [x]⟩

/-- `(*multierror.Error).ErrorOrNil`. -/
def multierror.ErrorOrNil (err : Option multierror.Error) : Option multierror.Error :=
  match err with
  | none => none
  | some m => if m.Errors.length = 0 then none else some m

/-! ## The package -/

/-- `FetchInfo`. -/
structure FetchInfo where
  RemoteURL : String
  StatusCode : Int
  Duration : Int
  deriving DecidableEq, Repr

/-- The interface `Resolver`. -/
structure Resolver where
  Resolve : Nat → String → Request → Except GoError Request

/-- The two methods of the interface `Provider` the remote provider calls. -/
structure Provider where
  Normalize : String → String
  NormalizeMulti : List String → List String

/-- `RemoteOption`: a nil `Transport` is `none`. -/
structure RemoteOption where
  Transport : Option RoundTripper
  Timeout : Int
  Resolver : Resolver

/-- `RemoteOption.httpTransport`. -/
def RemoteOption.httpTransport (w : World) (n : RemoteOption) : RoundTripper :=
  match n.Transport with
  | none => w.DefaultTransport
  | some t => t

/-- `RemoteOption.httpTimeout`. -/
def RemoteOption.httpTimeout (n : RemoteOption) : Int :=
  if n.Timeout = 0 then 30 * Second else n.Timeout

/-- `RemoteOption.httpClient`. -/
def RemoteOption.httpClient (w : World) (n : RemoteOption) : Client :=
  { Transport := n.httpTransport w, Timeout := n.httpTimeout }

/-- The struct `remoteProvider`. -/
structure remoteProvider where
  Provider : Provider
  option : RemoteOption

/-- `NewRemoteProvider`. -/
def NewRemoteProvider (p : Provider) (opt : RemoteOption) : remoteProvider :=
  { Provider := p, option := opt }

/-- A call the package makes to one of its collaborators. -/
inductive Event where
  | Normalize (key : String)
  | NormalizeMulti (keys : List String)
  | Resolve (key : String) (r : Request)
  | Do (r : Request)
  | ReadAll (r : Request)
  | Close (r : Request)
  | go (key : String)
  deriving DecidableEq, Repr

/-- The three values `Fetch` and `fetchRequest` return. -/
structure FetchResult where
  b : Option Bytes
  n : Option FetchInfo
  err : Option GoError
  deriving DecidableEq, Repr

/-- `remoteProvider.Resolve`, at the occasion `occ`. -/
def remoteProvider.Resolve (p : remoteProvider) (occ : Nat) (key : String) (r : Request) :
    Except GoError Request × List Event :=
  let k := p.Provider.Normalize key
  (p.option.Resolver.Resolve occ k r, [Event.Normalize key, Event.Resolve k r])

/-- `remoteProvider.fetchRequest`, at the occasion `occ`. -/
def remoteProvider.fetchRequest (w : World) (p : remoteProvider) (occ : Nat) (r : Request) :
    FetchResult × List Event :=
  let c := p.option.httpClient w
  match c.Do occ r with
  | .error err => (⟨none, none, some err⟩, [Event.Do r])
  | .ok resp =>
    if resp.StatusCode ≠ StatusOK then
      (⟨none, some ⟨r.URL, resp.StatusCode, w.since occ r⟩,
        errors.New ("invalid http status: " ++ resp.Status)⟩,
       [Event.Do r, Event.Close r])
    else
      let (b, err) := io.ReadAll resp.Body
      (⟨b, some ⟨r.URL, resp.StatusCode, w.since occ r⟩, err⟩,
       [Event.Do r, Event.ReadAll r, Event.Close r])

/-- `remoteProvider.Fetch`, at the occasion `occ`. -/
def remoteProvider.Fetch (w : World) (p : remoteProvider) (occ : Nat) (key : String)
    (r : Request) : FetchResult × List Event :=
  let k := p.Provider.Normalize key
  let (req, t) := p.Resolve occ k r
  match req with
  | .error err => (⟨none, none, some err⟩, Event.Normalize key :: t)
  | .ok req =>
    let (res, t') := p.fetchRequest w occ req
    (res, Event.Normalize key :: t ++ t')

/-- The local type `fetchPayload` of `FetchMulti`. -/
structure fetchPayload where
  body : Option Bytes
  info : Option FetchInfo
  deriving DecidableEq, Repr

/-- A value in flight on one of the two channels of `FetchMulti`. -/
inductive Message where
  | bc (kb : GoMap fetchPayload)
  | ec (err : Option GoError)
  deriving DecidableEq, Repr

/-- The goroutine `FetchMulti` starts for one key, at the occasion `occ`: the
message it sends. -/
def FetchMulti.goroutine (w : World) (p : remoteProvider) (r : Request) (occ : Nat)
    (key : String) : Message × List Event :=
  let (res, t) := p.Fetch w occ key r
  match res.err with
  | some err => (Message.ec (errors.Wrap (some err) key), t)
  | none => (Message.bc [(key, ⟨res.b, res.n⟩)], t)

/-- The variables `mb`, `mn` and `mrr` of `FetchMulti`. -/
structure FetchMulti.State where
  mb : GoMap (Option Bytes)
  mn : GoMap (Option FetchInfo)
  mrr : Option multierror.Error
  deriving DecidableEq, Repr

/-- One `select`: of the goroutines that have not been received from yet, the
one at position `choice` (modulo their number) delivers its message. Without a
sender the `select` blocks for ever (`none`). -/
def FetchMulti.select (choice : Nat) (pending : List Message) :
    Option (Message × List Message) :=
  match pending with
  | [] => none
  | m :: ms =>
    let i := choice % (m :: ms).length
    some ((m :: ms).getD i m, (m :: ms).eraseIdx i)

/-- The body of the `select`, for the message received. -/
def FetchMulti.receive (st : FetchMulti.State) : Message → FetchMulti.State
  | Message.bc kb =>
    kb.foldl (fun s kv => { s with mb := s.mb.set kv.1 kv.2.body, mn := s.mn.set kv.1 kv.2.info }) st
  | Message.ec err => { st with mrr := multierror.Append st.mrr err }

/-- The loop `for i := 0; i < len(ks); i++ { select ... }`, with `n` iterations
to go. -/
def FetchMulti.loop : Nat → List Nat → List Message → FetchMulti.State →
    Option FetchMulti.State
  | 0, _, _, st => some st
  | n + 1, sched, pending, st =>
    match FetchMulti.select (sched.headD 0) pending with
    | none => none
    | some (msg, rest) => FetchMulti.loop n sched.tail rest (FetchMulti.receive st msg)

/-- The three values `FetchMulti` returns. -/
structure FetchMultiResult where
  mb : GoMap (Option Bytes)
  mn : GoMap (Option FetchInfo)
  err : Option multierror.Error
  deriving DecidableEq, Repr

/-- `remoteProvider.FetchMulti`. The goroutine of the key at position `i` of
`ks` makes its calls at occasion `i`. The result is `none` when the loop blocks
for ever. The events of the goroutines are listed in the order the goroutines
are started. -/
def remoteProvider.FetchMulti (w : World) (p : remoteProvider) (sched : List Nat)
    (keys : List String) (r : Request) : Option FetchMultiResult × List Event :=
  let ks := p.Provider.NormalizeMulti keys
  let gs := ks.enum.map (fun ik => FetchMulti.goroutine w p r ik.1 ik.2)
  let trace := Event.NormalizeMulti keys ::
    (ks.enum.map (fun ik => Event.go ik.2 :: (FetchMulti.goroutine w p r ik.1 ik.2).2)).flatten
  match FetchMulti.loop ks.length sched (gs.map Prod.fst) ⟨[], [], none⟩ with
  | none => (none, trace)
  | some st => (some ⟨st.mb, st.mn, multierror.ErrorOrNil st.mrr⟩, trace)

/-! ## Reading results and traces -/

/-- The causes held by a `*multierror.Error`; a nil pointer holds none. -/
def multierror.causes (err : Option multierror.Error) : List GoError :=
  match err with
  | none => []
  | some m => m.Errors

/-- The keys the `Resolver` was called with, in a list of events. -/
def resolverKeys : List Event → List String
  | [] => []
  | Event.Resolve key _ :: t => key :: resolverKeys t
  | _ :: t => resolverKeys t

/-- The arguments of the calls of `Normalize`, in a list of events. -/
def normalizeArgs : List Event → List String
  | [] => []
  | Event.Normalize key :: t => key :: normalizeArgs t
  | _ :: t => normalizeArgs t

/-- The requests handed to the HTTP client, in a list of events. -/
def requestsSent : List Event → List Request
  | [] => []
  | Event.Do r :: t => r :: requestsSent t
  | _ :: t => requestsSent t

/-- The bodies read, by request, in a list of events. -/
def bodiesRead : List Event → List Request
  | [] => []
  | Event.ReadAll r :: t => r :: bodiesRead t
  | _ :: t => bodiesRead t

/-- The goroutines started, by key, in a list of events. -/
def goroutinesStarted : List Event → List String
  | [] => []
  | Event.go key :: t => key :: goroutinesStarted t
  | _ :: t => goroutinesStarted t

/-! ## A concrete provider, for the examples -/

/-- Keys are normalized by putting `p:` in front of them. -/
def demoNormalize (key : String) : String := "p:" ++ key

/-- The resolver: the key becomes the path; the key `bad`, in any normalized
form, does not resolve. -/
def demoResolver : Resolver :=
  ⟨fun _ key r => if key = "bad" then .error (GoError.new "no route") else .ok { r with URL := "http://origin/" ++ key }⟩

/-- The transport: 500 for `b`, no connection for `down`, a body that breaks
off for `cut`, for `flaky` 200 at occasion 0 and 500 afterwards, and 200 with a
body of three bytes otherwise. -/
def demoTransport : RoundTripper :=
  ⟨fun occ r =>
    if r.URL = "http://origin/b" then .ok ⟨"500 Internal Server Error", 500, ⟨[], none⟩⟩
    else if r.URL = "http://origin/flaky" ∧ occ ≠ 0 then
      .ok ⟨"500 Internal Server Error", 500, ⟨[], none⟩⟩
    else if r.URL = "http://origin/down" then .error (GoError.new "connection refused")
    else if r.URL = "http://origin/cut" then .ok ⟨"200 OK", 200, ⟨[1], some (GoError.new "unexpected EOF")⟩⟩
    else .ok ⟨"200 OK", 200, ⟨[1, 2, 3], none⟩⟩⟩

/-- The surroundings of the examples. -/
def demoWorld : World := ⟨demoTransport, fun _ _ => 5⟩

/-- A provider whose normalization leaves keys as they are. -/
def demoProvider : remoteProvider :=
  NewRemoteProvider ⟨id, id⟩ ⟨none, 0, demoResolver⟩

/-- A provider whose normalization is not idempotent. -/
def prefixingProvider : remoteProvider :=
  NewRemoteProvider ⟨demoNormalize, List.map demoNormalize⟩ ⟨some demoTransport, 2 * Second, demoResolver⟩

/-- The request template of the examples. -/
def demoRequest : Request := ⟨"GET", "http://origin/"⟩

end cache

namespace cache

/-! ## Maps: lookup, keys and size after an assignment -/

theorem GoMap.get?_set {V : Type} (m : GoMap V) (k : String) (v : V) (k' : String) :
    (GoMap.set m k v).get? k' = if k = k' then some v else m.get? k' := by
  induction m with
  | nil => simp [GoMap.set, GoMap.get?]
  | cons hd t ih =>
    obtain ⟨a, b⟩ := hd
    by_cases h : a = k
    · subst h
      by_cases h' : a = k' <;> simp [GoMap.set, GoMap.get?, h']
    · by_cases h' : a = k'
      · subst h'
        have : ¬ k = a := fun e => h e.symm
        simp [GoMap.set, GoMap.get?, h, this]
      · simp [GoMap.set, GoMap.get?, h, h', ih]

theorem GoMap.mem_keys_set {V : Type} (m : GoMap V) (k : String) (v : V) (k' : String) :
    k' ∈ (GoMap.set m k v).keys ↔ k' = k ∨ k' ∈ m.keys := by
  induction m with
  | nil => simp [GoMap.set, GoMap.keys]
  | cons hd t ih =>
    obtain ⟨a, b⟩ := hd
    by_cases h : a = k
    · subst h
      simp [GoMap.set, GoMap.keys]
    · have ih' : k' ∈ List.map Prod.fst (GoMap.set t k v) ↔ k' = k ∨ k' ∈ List.map Prod.fst t := ih
      simp only [GoMap.set, GoMap.keys, h, if_false, List.map_cons, List.mem_cons, ih']
      tauto

theorem GoMap.nodup_keys_set {V : Type} (m : GoMap V) (k : String) (v : V)
    (h : m.keys.Nodup) : (GoMap.set m k v).keys.Nodup := by
  induction m with
  | nil => simp [GoMap.set, GoMap.keys]
  | cons hd t ih =>
    obtain ⟨a, b⟩ := hd
    have hn : a ∉ GoMap.keys t ∧ (GoMap.keys t).Nodup := by
      simpa [GoMap.keys] using h
    by_cases e : a = k
    · subst e
      simpa [GoMap.set, GoMap.keys] using h
    · have hmem : a ∉ (GoMap.set t k v).keys := by
        rw [GoMap.mem_keys_set]
        rintro (h1 | h1)
        · exact e h1
        · exact hn.1 h1
      have ih' := ih hn.2
      simp only [GoMap.set, e, if_false]
      show (a :: (GoMap.set t k v).keys).Nodup
      exact List.nodup_cons.mpr ⟨hmem, ih'⟩

theorem GoMap.mem_keys_iff {V : Type} (m : GoMap V) (k : String) :
    k ∈ m.keys ↔ m.get? k ≠ none := by
  induction m with
  | nil => simp [GoMap.keys, GoMap.get?]
  | cons hd t ih =>
    obtain ⟨a, b⟩ := hd
    have ih' : k ∈ List.map Prod.fst t ↔ GoMap.get? t k ≠ none := ih
    by_cases h : a = k
    · subst h
      simp [GoMap.keys, GoMap.get?]
    · have h' : ¬ k = a := fun e => h e.symm
      simp only [GoMap.keys, GoMap.get?, h, h', if_false, List.map_cons, List.mem_cons,
        false_or, ih']

/-! ## The select loop receives every message once, in some order -/

theorem getD_map_aux {α β : Type} (f : α → β) (l : List α) (i : Nat) (d : α) :
    (l.map f).getD i (f d) = f (l.getD i d) := by
  induction l generalizing i with
  | nil => simp
  | cons a t ih =>
    cases i with
    | zero => simp
    | succ j => simp [ih j]

theorem eraseIdx_map_aux {α β : Type} (f : α → β) (l : List α) (i : Nat) :
    (l.map f).eraseIdx i = (l.eraseIdx i).map f := by
  induction l generalizing i with
  | nil => simp
  | cons a t ih =>
    cases i with
    | zero => simp
    | succ j => simpa using ih j

theorem perm_getD_eraseIdx {α : Type} (l : List α) (i : Nat) (d : α) (h : i < l.length) :
    (l.getD i d :: l.eraseIdx i).Perm l := by
  induction l generalizing i with
  | nil => simp at h
  | cons a t ih =>
    cases i with
    | zero => simp
    | succ j =>
      have hj : j < t.length := by simp at h; omega
      have h1 : (t.getD j d :: t.eraseIdx j).Perm t := ih j hj
      have h2 : (t.getD j d :: a :: t.eraseIdx j).Perm (a :: t.getD j d :: t.eraseIdx j) :=
        List.Perm.swap _ _ _
      have h3 : (a :: t.getD j d :: t.eraseIdx j).Perm (a :: t) := List.Perm.cons a h1
      simpa using h2.trans h3

/-- A `select` over the messages of the goroutines `ks` delivers the message
of one of them and leaves the messages of the others. -/
theorem FetchMulti.select_map {α : Type} (f : α → Message) (c : Nat) (k : α) (ks : List α) :
    ∃ k' rest, (k' :: rest).Perm (k :: ks) ∧
      FetchMulti.select c ((k :: ks).map f) = some (f k', rest.map f) := by
  have hlt : c % (k :: ks).length < (k :: ks).length := Nat.mod_lt _ (by simp)
  refine ⟨(k :: ks).getD (c % (k :: ks).length) k, (k :: ks).eraseIdx (c % (k :: ks).length),
    perm_getD_eraseIdx _ _ _ hlt, ?_⟩
  have h1 := getD_map_aux f (k :: ks) (c % (k :: ks).length) k
  have h2 := eraseIdx_map_aux f (k :: ks) (c % (k :: ks).length)
  simp only [List.map_cons, List.length_cons, List.length_map] at h1 h2 ⊢
  simp only [FetchMulti.select, List.length_cons, List.length_map, h1, h2]

/-- With as many iterations as goroutines the loop ends, having received the
message of every goroutine once, in some order `ks'`. -/
theorem FetchMulti.loop_spec {α : Type} (f : α → Message) :
    ∀ (n : Nat) (sched : List Nat) (ks : List α) (st : FetchMulti.State),
      ks.length = n →
      ∃ ks' : List α, ks'.Perm ks ∧
        FetchMulti.loop n sched (ks.map f) st = some ((ks'.map f).foldl FetchMulti.receive st) := by
  intro n
  induction n with
  | zero =>
    intro sched ks st h
    have : ks = [] := List.length_eq_zero.mp h
    subst this
    exact ⟨[], List.Perm.refl _, by simp [FetchMulti.loop]⟩
  | succ m ih =>
    intro sched ks st h
    cases ks with
    | nil => simp at h
    | cons k t =>
      obtain ⟨k', rest, hperm, hsel⟩ := FetchMulti.select_map f (sched.headD 0) k t
      have hlen : rest.length = m := by
        have := hperm.length_eq
        simp only [List.length_cons] at this h
        omega
      obtain ⟨ks', hp', hl'⟩ := ih sched.tail rest (FetchMulti.receive st (f k')) hlen
      refine ⟨k' :: ks', (List.Perm.cons k' hp').trans hperm, ?_⟩
      simp only [List.map_cons] at hsel
      simp only [FetchMulti.loop, List.map_cons, hsel, hl', List.foldl_cons]

/-- Every order of the goroutines is the order of arrival under some schedule. -/
theorem FetchMulti.loop_complete {α : Type} [DecidableEq α] (f : α → Message) :
    ∀ (ks' ks : List α) (st : FetchMulti.State), ks'.Perm ks →
      ∃ sched, FetchMulti.loop ks.length sched (ks.map f) st =
        some ((ks'.map f).foldl FetchMulti.receive st) := by
  intro ks'
  induction ks' with
  | nil =>
    intro ks st hp
    have : ks = [] := List.nil_perm.mp hp
    subst this
    exact ⟨[], by simp [FetchMulti.loop]⟩
  | cons a rest ih =>
    intro ks st hp
    have ha : a ∈ ks := hp.subset (List.mem_cons_self a rest)
    have hi : ks.indexOf a < ks.length := List.indexOf_lt_length.mpr ha
    have hrest : rest.Perm (ks.erase a) := (List.cons_perm_iff_perm_erase.mp hp).2
    obtain ⟨sched', hs'⟩ := ih (ks.erase a) (FetchMulti.receive st (f a)) hrest
    have hlen : ks.length = (ks.erase a).length + 1 := by
      have := List.length_erase_of_mem ha
      omega
    refine ⟨ks.indexOf a :: sched', ?_⟩
    cases ks with
    | nil => simp at ha
    | cons k t =>
      have hmod : (k :: t).indexOf a % (List.map f (k :: t)).length = (k :: t).indexOf a := by
        rw [List.length_map]
        exact Nat.mod_eq_of_lt hi
      have hget : (k :: t).getD ((k :: t).indexOf a) k = a := by
        rw [List.getD_eq_getElem _ _ hi]
        exact List.getElem_indexOf hi
      have hsel : FetchMulti.select ((k :: t).indexOf a) (List.map f (k :: t)) =
          some (f a, List.map f ((k :: t).erase a)) := by
        have h1 := getD_map_aux f (k :: t) ((k :: t).indexOf a) k
        have h2 := eraseIdx_map_aux f (k :: t) ((k :: t).indexOf a)
        rw [hget] at h1
        rw [List.eraseIdx_indexOf_eq_erase] at h2
        simp only [List.map_cons] at h1 h2 hmod ⊢
        simp only [FetchMulti.select, hmod, h1, h2]
      rw [hlen]
      simp only [List.map_cons] at hsel
      simp only [FetchMulti.loop, List.headD_cons, List.tail_cons, hsel, hs', List.map_cons,
        List.foldl_cons]

/-! ## What the loop does with the messages of the goroutines -/

theorem FetchMulti.receive_goroutine (w : World) (p : remoteProvider) (r : Request)
    (st : FetchMulti.State) (i : Nat) (a : String) :
    FetchMulti.receive st (FetchMulti.goroutine w p r i a).1 =
      match (p.Fetch w i a r).1.err with
      | none => { st with mb := st.mb.set a (p.Fetch w i a r).1.b,
                          mn := st.mn.set a (p.Fetch w i a r).1.n }
      | some e => { st with mrr := multierror.Append st.mrr (some (GoError.wrap e a)) } := by
  rcases h : p.Fetch w i a r with ⟨res, t⟩
  rcases he : res.err with _ | e
  · simp [FetchMulti.goroutine, h, he, FetchMulti.receive]
  · simp [FetchMulti.goroutine, h, he, FetchMulti.receive, errors.Wrap]

/-- The entries of a key after the messages of the goroutines `es` (occasion
and key) have been received in the order of `es`: either they are the body and
the FetchInfo of one fetch of the key that returned a nil error, or every fetch
of the key returned an error and the entries are as before. -/
theorem FetchMulti.fold_entry (w : World) (p : remoteProvider) (r : Request) :
    ∀ (es : List (Nat × String)) (st : FetchMulti.State) (k : String),
      (∃ i, (i, k) ∈ es ∧ (p.Fetch w i k r).1.err = none ∧
        ((es.map (fun ik => (FetchMulti.goroutine w p r ik.1 ik.2).1)).foldl
          FetchMulti.receive st).mb.get? k = some (p.Fetch w i k r).1.b ∧
        ((es.map (fun ik => (FetchMulti.goroutine w p r ik.1 ik.2).1)).foldl
          FetchMulti.receive st).mn.get? k = some (p.Fetch w i k r).1.n) ∨
      ((∀ i, (i, k) ∈ es → (p.Fetch w i k r).1.err ≠ none) ∧
        ((es.map (fun ik => (FetchMulti.goroutine w p r ik.1 ik.2).1)).foldl
          FetchMulti.receive st).mb.get? k = st.mb.get? k ∧
        ((es.map (fun ik => (FetchMulti.goroutine w p r ik.1 ik.2).1)).foldl
          FetchMulti.receive st).mn.get? k = st.mn.get? k) := by
  intro es
  induction es with
  | nil =>
    intro st k
    right
    simp
  | cons hd t ih =>
    intro st k
    obtain ⟨i, a⟩ := hd
    simp only [List.map_cons, List.foldl_cons]
    rcases ih (FetchMulti.receive st (FetchMulti.goroutine w p r i a).1) k with
      ⟨j, hj, he, hb, hn⟩ | ⟨hall, hb, hn⟩
    · left
      exact ⟨j, List.mem_cons_of_mem _ hj, he, hb, hn⟩
    · have hrec := FetchMulti.receive_goroutine w p r st i a
      rcases hea : (p.Fetch w i a r).1.err with _ | e
      · rw [hea] at hrec
        have hb' : (FetchMulti.receive st (FetchMulti.goroutine w p r i a).1).mb.get? k =
            if a = k then some (p.Fetch w i a r).1.b else st.mb.get? k := by
          rw [hrec]
          exact GoMap.get?_set _ _ _ _
        have hn' : (FetchMulti.receive st (FetchMulti.goroutine w p r i a).1).mn.get? k =
            if a = k then some (p.Fetch w i a r).1.n else st.mn.get? k := by
          rw [hrec]
          exact GoMap.get?_set _ _ _ _
        by_cases hak : a = k
        · subst hak
          left
          refine ⟨i, List.mem_cons_self _ _, hea, ?_, ?_⟩
          · rw [hb, hb']; simp
          · rw [hn, hn']; simp
        · right
          refine ⟨?_, ?_, ?_⟩
          · intro j hj
            rcases List.mem_cons.1 hj with h | h
            · exact absurd (congrArg Prod.snd h).symm hak
            · exact hall j h
          · rw [hb, hb', if_neg hak]
          · rw [hn, hn', if_neg hak]
      · rw [hea] at hrec
        have hb' : (FetchMulti.receive st (FetchMulti.goroutine w p r i a).1).mb.get? k =
            st.mb.get? k := by rw [hrec]
        have hn' : (FetchMulti.receive st (FetchMulti.goroutine w p r i a).1).mn.get? k =
            st.mn.get? k := by rw [hrec]
        right
        refine ⟨?_, hb.trans hb', hn.trans hn'⟩
        intro j hj
        rcases List.mem_cons.1 hj with h | h
        · have h1 : j = i := congrArg Prod.fst h
          have h2 : k = a := congrArg Prod.snd h
          subst h1 h2
          rw [hea]
          exact fun c => Option.noConfusion c
        · exact hall j h

theorem FetchMulti.fold_nodup (w : World) (p : remoteProvider) (r : Request) :
    ∀ (es : List (Nat × String)) (st : FetchMulti.State),
      st.mb.keys.Nodup → st.mn.keys.Nodup →
      ((es.map (fun ik => (FetchMulti.goroutine w p r ik.1 ik.2).1)).foldl
        FetchMulti.receive st).mb.keys.Nodup ∧
      ((es.map (fun ik => (FetchMulti.goroutine w p r ik.1 ik.2).1)).foldl
        FetchMulti.receive st).mn.keys.Nodup := by
  intro es
  induction es with
  | nil => intro st hb hn; exact ⟨hb, hn⟩
  | cons hd t ih =>
    intro st hb hn
    obtain ⟨i, a⟩ := hd
    simp only [List.map_cons, List.foldl_cons, FetchMulti.receive_goroutine]
    rcases he : (p.Fetch w i a r).1.err with _ | e
    · exact ih _ (GoMap.nodup_keys_set _ _ _ hb) (GoMap.nodup_keys_set _ _ _ hn)
    · exact ih _ hb hn

theorem multierror.causes_Append (err : Option multierror.Error) (e : GoError) :
    multierror.causes (multierror.Append err (some e)) = multierror.causes err ++ [e] := by
  cases err <;> simp [multierror.causes, multierror.Append]

theorem multierror.ErrorOrNil_eq_none (err : Option multierror.Error) :
    multierror.ErrorOrNil err = none ↔ multierror.causes err = [] := by
  cases err with
  | none => simp [multierror.ErrorOrNil, multierror.causes]
  | some m =>
    by_cases h : m.Errors = []
    · simp [multierror.ErrorOrNil, multierror.causes, h]
    · simp [multierror.ErrorOrNil, multierror.causes, h]

theorem multierror.causes_ErrorOrNil (err : Option multierror.Error) :
    multierror.causes (multierror.ErrorOrNil err) = multierror.causes err := by
  cases err with
  | none => simp [multierror.ErrorOrNil, multierror.causes]
  | some m =>
    by_cases h : m.Errors = []
    · simp [multierror.ErrorOrNil, multierror.causes, h]
    · simp [multierror.ErrorOrNil, multierror.causes, h]

theorem FetchMulti.fold_mrr (w : World) (p : remoteProvider) (r : Request) :
    ∀ (es : List (Nat × String)) (st : FetchMulti.State),
      multierror.causes
          ((es.map (fun ik => (FetchMulti.goroutine w p r ik.1 ik.2).1)).foldl
            FetchMulti.receive st).mrr =
        multierror.causes st.mrr ++
          es.filterMap (fun ik => errors.Wrap (p.Fetch w ik.1 ik.2 r).1.err ik.2) := by
  intro es
  induction es with
  | nil => intro st; simp
  | cons hd t ih =>
    intro st
    obtain ⟨i, a⟩ := hd
    simp only [List.map_cons, List.foldl_cons, ih, FetchMulti.receive_goroutine]
    rcases he : (p.Fetch w i a r).1.err with _ | e
    · simp [List.filterMap_cons, he, errors.Wrap]
    · simp [List.filterMap_cons, he, errors.Wrap, multierror.causes_Append]

/-- The result of `FetchMulti`: the loop ends, and its state is the one reached
by receiving the messages of the goroutines in some order `es`. -/
theorem remoteProvider.FetchMulti_spec (w : World) (p : remoteProvider) (sched : List Nat)
    (keys : List String) (r : Request) :
    ∃ (es : List (Nat × String)) (st : FetchMulti.State),
      es.Perm (p.Provider.NormalizeMulti keys).enum ∧
      st = (es.map (fun ik => (FetchMulti.goroutine w p r ik.1 ik.2).1)).foldl
        FetchMulti.receive ⟨[], [], none⟩ ∧
      (p.FetchMulti w sched keys r).1 = some ⟨st.mb, st.mn, multierror.ErrorOrNil st.mrr⟩ := by
  obtain ⟨es, hp, hl⟩ := FetchMulti.loop_spec
    (fun ik : Nat × String => (FetchMulti.goroutine w p r ik.1 ik.2).1)
    (p.Provider.NormalizeMulti keys).length sched (p.Provider.NormalizeMulti keys).enum
    ⟨[], [], none⟩ (List.enum_length)
  refine ⟨es, _, hp, rfl, ?_⟩
  have hmap : List.map Prod.fst
      (List.map (fun ik : Nat × String => FetchMulti.goroutine w p r ik.1 ik.2)
        (p.Provider.NormalizeMulti keys).enum)
      = List.map (fun ik : Nat × String => (FetchMulti.goroutine w p r ik.1 ik.2).1)
        (p.Provider.NormalizeMulti keys).enum := by
    simp [List.map_map, Function.comp_def]
  simp only [remoteProvider.FetchMulti, hmap, hl]

/-! ## The four ways a single fetch ends -/

theorem remoteProvider.Fetch_resolve_error (w : World) (p : remoteProvider) (occ : Nat) (key : String)
    (r : Request) (e : GoError)
    (h : p.option.Resolver.Resolve occ (p.Provider.Normalize (p.Provider.Normalize key)) r = .error e) :
    p.Fetch w occ key r = (⟨none, none, some e⟩,
      [Event.Normalize key, Event.Normalize (p.Provider.Normalize key),
       Event.Resolve (p.Provider.Normalize (p.Provider.Normalize key)) r]) := by
  simp [remoteProvider.Fetch, remoteProvider.Resolve, h]

theorem remoteProvider.Fetch_do_error (w : World) (p : remoteProvider) (occ : Nat) (key : String)
    (r req : Request) (e : GoError)
    (h : p.option.Resolver.Resolve occ (p.Provider.Normalize (p.Provider.Normalize key)) r = .ok req)
    (hd : (p.option.httpClient w).Do occ req = .error e) :
    p.Fetch w occ key r = (⟨none, none, some e⟩,
      [Event.Normalize key, Event.Normalize (p.Provider.Normalize key),
       Event.Resolve (p.Provider.Normalize (p.Provider.Normalize key)) r, Event.Do req]) := by
  simp [remoteProvider.Fetch, remoteProvider.Resolve, remoteProvider.fetchRequest, h, hd]

theorem remoteProvider.Fetch_status (w : World) (p : remoteProvider) (occ : Nat) (key : String)
    (r req : Request) (resp : Response)
    (h : p.option.Resolver.Resolve occ (p.Provider.Normalize (p.Provider.Normalize key)) r = .ok req)
    (hd : (p.option.httpClient w).Do occ req = .ok resp) (hs : resp.StatusCode ≠ StatusOK) :
    p.Fetch w occ key r =
      (⟨none, some ⟨req.URL, resp.StatusCode, w.since occ req⟩,
        some (GoError.new ("invalid http status: " ++ resp.Status))⟩,
       [Event.Normalize key, Event.Normalize (p.Provider.Normalize key),
        Event.Resolve (p.Provider.Normalize (p.Provider.Normalize key)) r,
        Event.Do req, Event.Close req]) := by
  simp [remoteProvider.Fetch, remoteProvider.Resolve, remoteProvider.fetchRequest, h, hd, hs,
    errors.New]

theorem remoteProvider.Fetch_ok (w : World) (p : remoteProvider) (occ : Nat) (key : String)
    (r req : Request) (resp : Response)
    (h : p.option.Resolver.Resolve occ (p.Provider.Normalize (p.Provider.Normalize key)) r = .ok req)
    (hd : (p.option.httpClient w).Do occ req = .ok resp) (hs : resp.StatusCode = StatusOK) :
    p.Fetch w occ key r =
      (⟨some resp.Body.data, some ⟨req.URL, resp.StatusCode, w.since occ req⟩, resp.Body.err⟩,
       [Event.Normalize key, Event.Normalize (p.Provider.Normalize key),
        Event.Resolve (p.Provider.Normalize (p.Provider.Normalize key)) r,
        Event.Do req, Event.ReadAll req, Event.Close req]) := by
  simp [remoteProvider.Fetch, remoteProvider.Resolve, remoteProvider.fetchRequest, h, hd, hs,
    io.ReadAll]

/-- A fetch that returns a nil error returns a `FetchInfo` with status 200 and
a body that is not nil. -/
theorem remoteProvider.Fetch_success (w : World) (p : remoteProvider) (occ : Nat) (key : String)
    (r : Request) (h : (p.Fetch w occ key r).1.err = none) :
    ∃ info body, (p.Fetch w occ key r).1.n = some info ∧ info.StatusCode = 200 ∧
      (p.Fetch w occ key r).1.b = some body := by
  rcases hr : p.option.Resolver.Resolve occ (p.Provider.Normalize (p.Provider.Normalize key)) r
    with e | req
  · rw [remoteProvider.Fetch_resolve_error w p occ key r e hr] at h
    simp at h
  · rcases hd : (p.option.httpClient w).Do occ req with e | resp
    · rw [remoteProvider.Fetch_do_error w p occ key r req e hr hd] at h
      simp at h
    · by_cases hs : resp.StatusCode = StatusOK
      · rw [remoteProvider.Fetch_ok w p occ key r req resp hr hd hs]
        exact ⟨_, _, rfl, hs, rfl⟩
      · rw [remoteProvider.Fetch_status w p occ key r req resp hr hd hs] at h
        simp at h

/-- The events of a single fetch name the resolver once, with the key
normalized twice. -/
theorem remoteProvider.Fetch_resolverKeys (w : World) (p : remoteProvider) (occ : Nat) (key : String)
    (r : Request) :
    resolverKeys (p.Fetch w occ key r).2 = [p.Provider.Normalize (p.Provider.Normalize key)] ∧
    normalizeArgs (p.Fetch w occ key r).2 = [key, p.Provider.Normalize key] := by
  rcases hr : p.option.Resolver.Resolve occ (p.Provider.Normalize (p.Provider.Normalize key)) r
    with e | req
  · rw [remoteProvider.Fetch_resolve_error w p occ key r e hr]
    simp [resolverKeys, normalizeArgs]
  · rcases hd : (p.option.httpClient w).Do occ req with e | resp
    · rw [remoteProvider.Fetch_do_error w p occ key r req e hr hd]
      simp [resolverKeys, normalizeArgs]
    · by_cases hs : resp.StatusCode = StatusOK
      · rw [remoteProvider.Fetch_ok w p occ key r req resp hr hd hs]
        simp [resolverKeys, normalizeArgs]
      · rw [remoteProvider.Fetch_status w p occ key r req resp hr hd hs]
        simp [resolverKeys, normalizeArgs]

/-! ## Traces of a batch -/

theorem resolverKeys_append (a b : List Event) :
    resolverKeys (a ++ b) = resolverKeys a ++ resolverKeys b := by
  induction a with
  | nil => rfl
  | cons e t ih => cases e <;> simp [resolverKeys, ih]

theorem FetchMulti.goroutine_trace (w : World) (p : remoteProvider) (r : Request) (i : Nat)
    (k : String) : (FetchMulti.goroutine w p r i k).2 = (p.Fetch w i k r).2 := by
  rcases h : p.Fetch w i k r with ⟨res, t⟩
  rcases he : res.err with _ | e <;> simp [FetchMulti.goroutine, h, he]

theorem FetchMulti.trace_resolverKeys (w : World) (p : remoteProvider) (r : Request) :
    ∀ es : List (Nat × String),
      resolverKeys
          (es.map (fun ik => Event.go ik.2 :: (FetchMulti.goroutine w p r ik.1 ik.2).2)).flatten =
        (es.map Prod.snd).map (fun k => p.Provider.Normalize (p.Provider.Normalize k)) := by
  intro es
  induction es with
  | nil => rfl
  | cons hd t ih =>
    obtain ⟨i, a⟩ := hd
    have h := (remoteProvider.Fetch_resolverKeys w p i a r).1
    simp only [FetchMulti.goroutine_trace] at ih ⊢
    simp [resolverKeys, resolverKeys_append, ih, h]

theorem remoteProvider.FetchMulti_trace (w : World) (p : remoteProvider) (sched : List Nat)
    (keys : List String) (r : Request) :
    (p.FetchMulti w sched keys r).2 = Event.NormalizeMulti keys ::
      ((p.Provider.NormalizeMulti keys).enum.map
        (fun ik => Event.go ik.2 :: (FetchMulti.goroutine w p r ik.1 ik.2).2)).flatten := by
  simp only [remoteProvider.FetchMulti]
  split <;> rfl

/-! ## The single fetch -/

/-- C5, as the code has it: for a response the transport returns to a single
Fetch, the FetchInfo carries the URL of the resolved request and the status of
the response; with status 200 the body is what reading the response delivered
and the error is the error of that read (nil, with the full payload, when the
read succeeds); with any other status the body is nil, the error is the
non-nil "invalid http status" error and the body of the response is not read. -/
theorem C5_fetch_by_status (w : World) (p : remoteProvider) (occ : Nat) (key : String) (r req : Request)
    (resp : Response)
    (h : p.option.Resolver.Resolve occ (p.Provider.Normalize (p.Provider.Normalize key)) r = .ok req)
    (hd : (p.option.httpClient w).Do occ req = .ok resp) :
    (p.Fetch w occ key r).1.n = some ⟨req.URL, resp.StatusCode, w.since occ req⟩ ∧
    (resp.StatusCode = 200 →
      (p.Fetch w occ key r).1.b = some resp.Body.data ∧
      (p.Fetch w occ key r).1.err = resp.Body.err ∧
      (resp.Body.err = none → (p.Fetch w occ key r).1.err = none)) ∧
    (resp.StatusCode ≠ 200 →
      (p.Fetch w occ key r).1.b = none ∧
      (p.Fetch w occ key r).1.err = some (GoError.new ("invalid http status: " ++ resp.Status)) ∧
      bodiesRead (p.Fetch w occ key r).2 = []) := by
  by_cases hs : resp.StatusCode = StatusOK
  · rw [remoteProvider.Fetch_ok w p occ key r req resp h hd hs]
    refine ⟨rfl, fun _ => ⟨rfl, rfl, fun e => e⟩, fun hne => absurd hs hne⟩
  · rw [remoteProvider.Fetch_status w p occ key r req resp h hd hs]
    refine ⟨rfl, fun he => absurd he hs, fun _ => ⟨rfl, rfl, ?_⟩⟩
    simp [bodiesRead]

/-- C5, an instance: the key `b` of the example provider, whose response has
status 500. -/
theorem C5_fetch_by_status_witness :
    (demoProvider.Fetch demoWorld 0 "b" demoRequest).1.n = some ⟨"http://origin/b", 500, 5⟩ ∧
    ((500 : Int) = 200 →
      (demoProvider.Fetch demoWorld 0 "b" demoRequest).1.b = some [] ∧
      (demoProvider.Fetch demoWorld 0 "b" demoRequest).1.err = none ∧
      ((none : Option GoError) = none → (demoProvider.Fetch demoWorld 0 "b" demoRequest).1.err = none)) ∧
    ((500 : Int) ≠ 200 →
      (demoProvider.Fetch demoWorld 0 "b" demoRequest).1.b = none ∧
      (demoProvider.Fetch demoWorld 0 "b" demoRequest).1.err =
        some (GoError.new ("invalid http status: " ++ "500 Internal Server Error")) ∧
      bodiesRead (demoProvider.Fetch demoWorld 0 "b" demoRequest).2 = []) :=
  C5_fetch_by_status demoWorld demoProvider 0 "b" demoRequest ⟨"GET", "http://origin/b"⟩
    ⟨"500 Internal Server Error", 500, ⟨[], none⟩⟩ (by decide) (by decide)

/-- C5, as stated, fails: the response to the key `cut` has status 200 and a
body whose read breaks off, and the fetch returns a non-nil error. -/
theorem C5_counterexample :
    demoProvider.option.Resolver.Resolve 0 "cut" demoRequest = .ok ⟨"GET", "http://origin/cut"⟩ ∧
    (demoProvider.option.httpClient demoWorld).Do 0 ⟨"GET", "http://origin/cut"⟩ =
      .ok ⟨"200 OK", 200, ⟨[1], some (GoError.new "unexpected EOF")⟩⟩ ∧
    (demoProvider.Fetch demoWorld 0 "cut" demoRequest).1 =
      ⟨some [1], some ⟨"http://origin/cut", 200, 5⟩, some (GoError.new "unexpected EOF")⟩ := by
  refine ⟨by decide, by decide, by decide⟩

/-- C6: a single Fetch returns a nil FetchInfo exactly when the resolution
failed or the transport returned an error; whenever the transport returned a
response, of any status and whatever the read of its body does, the FetchInfo
is not nil; and when the resolution fails, Fetch returns the error of the
resolver with a nil body and hands no request to the transport. -/
theorem C6_fetch_info_nil_iff (w : World) (p : remoteProvider) (occ : Nat) (key : String) (r : Request) :
    ((p.Fetch w occ key r).1.n = none ↔
      ((∃ e, p.option.Resolver.Resolve occ (p.Provider.Normalize (p.Provider.Normalize key)) r
          = .error e) ∨
       (∃ req e, p.option.Resolver.Resolve occ (p.Provider.Normalize (p.Provider.Normalize key)) r
          = .ok req ∧ (p.option.httpClient w).Do occ req = .error e))) ∧
    (∀ req resp, p.option.Resolver.Resolve occ (p.Provider.Normalize (p.Provider.Normalize key)) r
        = .ok req → (p.option.httpClient w).Do occ req = .ok resp →
      (p.Fetch w occ key r).1.n = some ⟨req.URL, resp.StatusCode, w.since occ req⟩) ∧
    (∀ e, p.option.Resolver.Resolve occ (p.Provider.Normalize (p.Provider.Normalize key)) r
        = .error e →
      (p.Fetch w occ key r).1 = ⟨none, none, some e⟩ ∧ requestsSent (p.Fetch w occ key r).2 = []) := by
  refine ⟨?_, ?_, ?_⟩
  · rcases hr : p.option.Resolver.Resolve occ (p.Provider.Normalize (p.Provider.Normalize key)) r
      with e | req
    · rw [remoteProvider.Fetch_resolve_error w p occ key r e hr]
      simp
    · rcases hd : (p.option.httpClient w).Do occ req with e | resp
      · rw [remoteProvider.Fetch_do_error w p occ key r req e hr hd]
        simp [hd]
      · by_cases hs : resp.StatusCode = StatusOK
        · rw [remoteProvider.Fetch_ok w p occ key r req resp hr hd hs]
          simp [hd]
        · rw [remoteProvider.Fetch_status w p occ key r req resp hr hd hs]
          simp [hd]
  · intro req resp hr hd
    by_cases hs : resp.StatusCode = StatusOK
    · rw [remoteProvider.Fetch_ok w p occ key r req resp hr hd hs]
    · rw [remoteProvider.Fetch_status w p occ key r req resp hr hd hs]
  · intro e hr
    rw [remoteProvider.Fetch_resolve_error w p occ key r e hr]
    simp [requestsSent]

/-- C7, as the code has it: within one Fetch the normalization is applied
twice, once by Fetch and once by Resolve, so the Resolver is called once, with
Normalize(Normalize(key)); that is Normalize(key) when the normalization is
idempotent. In a batch every key k of NormalizeMulti(keys) reaches the Resolver
as Normalize(Normalize(k)). -/
theorem C7_resolver_receives_twice_normalized (w : World) (p : remoteProvider) (occ : Nat)
    (key : String)
    (r : Request) (sched : List Nat) (keys : List String) :
    resolverKeys (p.Fetch w occ key r).2 = [p.Provider.Normalize (p.Provider.Normalize key)] ∧
    normalizeArgs (p.Fetch w occ key r).2 = [key, p.Provider.Normalize key] ∧
    ((∀ x, p.Provider.Normalize (p.Provider.Normalize x) = p.Provider.Normalize x) →
      resolverKeys (p.Fetch w occ key r).2 = [p.Provider.Normalize key]) ∧
    resolverKeys (p.FetchMulti w sched keys r).2 =
      (p.Provider.NormalizeMulti keys).map
        (fun k => p.Provider.Normalize (p.Provider.Normalize k)) := by
  have h := remoteProvider.Fetch_resolverKeys w p occ key r
  refine ⟨h.1, h.2, fun hi => by rw [h.1, hi], ?_⟩
  rw [remoteProvider.FetchMulti_trace]
  simp only [resolverKeys]
  rw [FetchMulti.trace_resolverKeys w p r _, List.enum_map_snd]

/-- C7, as stated, fails: with a normalization that puts `p:` in front of a
key, Normalize("a") is `p:a`, and the Resolver receives `p:p:a` from Fetch and
`p:p:p:a` from FetchMulti. -/
theorem C7_counterexample :
    prefixingProvider.Provider.Normalize "a" = "p:a" ∧
    resolverKeys (prefixingProvider.Fetch demoWorld 0 "a" demoRequest).2 = ["p:p:a"] ∧
    normalizeArgs (prefixingProvider.Fetch demoWorld 0 "a" demoRequest).2 = ["a", "p:a"] ∧
    resolverKeys (prefixingProvider.FetchMulti demoWorld [] ["a"] demoRequest).2 = ["p:p:p:a"] := by
  refine ⟨by decide, by decide, by decide, by decide⟩

/-! ## The HTTP client of an option -/

/-- C9: the client built from an option has a timeout of 30 seconds when the
Timeout of the option is zero and the Timeout of the option otherwise, and has
the default transport of the platform, as it is at the construction, when the
Transport of the option is nil and the Transport of the option otherwise. -/
theorem C9_httpClient_defaults (w : World) (n : RemoteOption) :
    (n.httpClient w).Timeout = (if n.Timeout = 0 then 30000000000 else n.Timeout) ∧
    (n.Transport = none → (n.httpClient w).Transport = w.DefaultTransport) ∧
    (∀ t, n.Transport = some t → (n.httpClient w).Transport = t) ∧
    (∀ w' : World, n.Transport = none → (n.httpClient w').Transport = w'.DefaultTransport) := by
  refine ⟨?_, ?_, ?_, ?_⟩
  · by_cases h : n.Timeout = 0 <;>
      simp [RemoteOption.httpClient, RemoteOption.httpTimeout, Second, h]
  · intro h
    simp [RemoteOption.httpClient, RemoteOption.httpTransport, h]
  · intro t h
    simp [RemoteOption.httpClient, RemoteOption.httpTransport, h]
  · intro w' h
    simp [RemoteOption.httpClient, RemoteOption.httpTransport, h]

/-! ## The result of a batch -/

/-- The mappings and the error of a batch, in terms of the fetches of its
goroutines, for every order in which the messages are received: the entries of a
key are the body and the FetchInfo of one fetch of the key that returned a nil
error, or every fetch of the key returned an error and the key has no entry. -/
theorem remoteProvider.FetchMulti_result (w : World) (p : remoteProvider) (sched : List Nat)
    (keys : List String) (r : Request) :
    ∃ res, (p.FetchMulti w sched keys r).1 = some res ∧
      (∀ k,
        (∃ i, (i, k) ∈ (p.Provider.NormalizeMulti keys).enum ∧ (p.Fetch w i k r).1.err = none ∧
          res.mb.get? k = some (p.Fetch w i k r).1.b ∧
          res.mn.get? k = some (p.Fetch w i k r).1.n) ∨
        ((∀ i, (i, k) ∈ (p.Provider.NormalizeMulti keys).enum →
            (p.Fetch w i k r).1.err ≠ none) ∧
          res.mb.get? k = none ∧ res.mn.get? k = none)) ∧
      res.mb.keys.Nodup ∧ res.mn.keys.Nodup ∧
      (multierror.causes res.err).Perm
        ((p.Provider.NormalizeMulti keys).enum.filterMap
          (fun ik => errors.Wrap (p.Fetch w ik.1 ik.2 r).1.err ik.2)) ∧
      (res.err = none ↔ multierror.causes res.err = []) := by
  obtain ⟨es, st, hp, hst, hres⟩ := remoteProvider.FetchMulti_spec w p sched keys r
  refine ⟨_, hres, ?_, ?_, ?_, ?_, ?_⟩
  · intro k
    show (∃ i, _ ∧ _ ∧ st.mb.get? k = _ ∧ st.mn.get? k = _) ∨
      (_ ∧ st.mb.get? k = none ∧ st.mn.get? k = none)
    rw [hst]
    rcases FetchMulti.fold_entry w p r es ⟨[], [], none⟩ k with
      ⟨i, hi, he, hb, hn⟩ | ⟨hall, hb, hn⟩
    · left
      exact ⟨i, hp.mem_iff.1 hi, he, hb, hn⟩
    · right
      exact ⟨fun i hi => hall i (hp.mem_iff.2 hi), hb, hn⟩
  · show st.mb.keys.Nodup
    rw [hst]
    exact (FetchMulti.fold_nodup w p r es ⟨[], [], none⟩ List.nodup_nil List.nodup_nil).1
  · show st.mn.keys.Nodup
    rw [hst]
    exact (FetchMulti.fold_nodup w p r es ⟨[], [], none⟩ List.nodup_nil List.nodup_nil).2
  · show (multierror.causes (multierror.ErrorOrNil st.mrr)).Perm _
    rw [multierror.causes_ErrorOrNil, hst, FetchMulti.fold_mrr]
    simpa [multierror.causes] using
      hp.filterMap (fun ik => errors.Wrap (p.Fetch w ik.1 ik.2 r).1.err ik.2)
  · show multierror.ErrorOrNil st.mrr = none ↔ multierror.causes (multierror.ErrorOrNil st.mrr) = []
    rw [multierror.causes_ErrorOrNil]
    exact multierror.ErrorOrNil_eq_none st.mrr

/-- The keys of two mappings whose entries for `k` are as in
`FetchMulti_result`: `k` is a key exactly when one of its fetches returned a
nil error. -/
theorem FetchMulti.keys_of_entry (w : World) (p : remoteProvider) (r : Request)
    (es : List (Nat × String)) (mb : GoMap (Option Bytes)) (mn : GoMap (Option FetchInfo))
    (k : String)
    (h : (∃ i, (i, k) ∈ es ∧ (p.Fetch w i k r).1.err = none ∧
          mb.get? k = some (p.Fetch w i k r).1.b ∧ mn.get? k = some (p.Fetch w i k r).1.n) ∨
        ((∀ i, (i, k) ∈ es → (p.Fetch w i k r).1.err ≠ none) ∧
          mb.get? k = none ∧ mn.get? k = none)) :
    (k ∈ mb.keys ↔ ∃ i, (i, k) ∈ es ∧ (p.Fetch w i k r).1.err = none) ∧
    (k ∈ mn.keys ↔ ∃ i, (i, k) ∈ es ∧ (p.Fetch w i k r).1.err = none) := by
  rw [GoMap.mem_keys_iff, GoMap.mem_keys_iff]
  rcases h with ⟨i, hi, he, hb, hn⟩ | ⟨hall, hb, hn⟩
  · rw [hb, hn]
    exact ⟨⟨fun _ => ⟨i, hi, he⟩, fun _ c => Option.noConfusion c⟩,
      ⟨fun _ => ⟨i, hi, he⟩, fun _ c => Option.noConfusion c⟩⟩
  · rw [hb, hn]
    exact ⟨⟨fun c => absurd rfl c, fun ⟨i, hi, he⟩ => absurd he (hall i hi)⟩,
      ⟨fun c => absurd rfl c, fun ⟨i, hi, he⟩ => absurd he (hall i hi)⟩⟩

theorem filterMap_Wrap_eq_nil (f : Nat × String → Option GoError) (es : List (Nat × String)) :
    es.filterMap (fun ik => errors.Wrap (f ik) ik.2) = [] ↔ ∀ ik ∈ es, f ik = none := by
  induction es with
  | nil => simp
  | cons a t ih =>
    rcases h : f a with _ | e
    · have hw : errors.Wrap none a.2 = none := rfl
      simp only [List.filterMap_cons, hw, List.forall_mem_cons, h, true_and, ih]
    · have hw : errors.Wrap (some e) a.2 = some (GoError.wrap e a.2) := rfl
      simp [List.filterMap_cons, hw, h]

theorem exists_mem_enum_of_mem (ks : List String) (k : String) (h : k ∈ ks) :
    ∃ i, (i, k) ∈ ks.enum := by
  have hm : k ∈ ks.enum.map Prod.snd := by rw [List.enum_map_snd]; exact h
  obtain ⟨⟨i, k'⟩, hik, hk⟩ := List.mem_map.1 hm
  have : k' = k := hk
  subst this
  exact ⟨i, hik⟩

theorem GoMap.len_eq_of_mem_iff {V : Type} (m : GoMap V) (ks : List String)
    (hn : m.keys.Nodup) (h : ∀ k, k ∈ m.keys ↔ k ∈ ks) : m.len = ks.dedup.length := by
  have hperm : m.keys.Perm ks.dedup :=
    (List.perm_ext_iff_of_nodup hn (List.nodup_dedup ks)).2 (fun a => by rw [h a, List.mem_dedup])
  have := hperm.length_eq
  simpa [GoMap.len, GoMap.keys] using this

/-! ## The batch fetch -/

/-- C10: for a batch that NormalizeMulti maps to the empty list, FetchMulti
returns two empty mappings and a nil error, and its only call is the one of
NormalizeMulti: the Resolver is not called, no request is sent and no goroutine
is started. -/
theorem C10_empty_batch (w : World) (p : remoteProvider) (sched : List Nat)
    (keys : List String) (r : Request) (h : p.Provider.NormalizeMulti keys = []) :
    p.FetchMulti w sched keys r = (some ⟨[], [], none⟩, [Event.NormalizeMulti keys]) ∧
    resolverKeys (p.FetchMulti w sched keys r).2 = [] ∧
    requestsSent (p.FetchMulti w sched keys r).2 = [] ∧
    goroutinesStarted (p.FetchMulti w sched keys r).2 = [] := by
  have e : p.FetchMulti w sched keys r = (some ⟨[], [], none⟩, [Event.NormalizeMulti keys]) := by
    simp [remoteProvider.FetchMulti, h, FetchMulti.loop, multierror.ErrorOrNil]
  rw [e]
  exact ⟨rfl, rfl, rfl, rfl⟩

/-- C10, an instance: the empty batch of the example provider. -/
theorem C10_empty_batch_witness :
    demoProvider.Provider.NormalizeMulti [] = [] ∧
    demoProvider.FetchMulti demoWorld [1, 0] [] demoRequest =
      (some ⟨[], [], none⟩, [Event.NormalizeMulti []]) ∧
    resolverKeys (demoProvider.FetchMulti demoWorld [1, 0] [] demoRequest).2 = [] ∧
    requestsSent (demoProvider.FetchMulti demoWorld [1, 0] [] demoRequest).2 = [] ∧
    goroutinesStarted (demoProvider.FetchMulti demoWorld [1, 0] [] demoRequest).2 = [] :=
  ⟨rfl, C10_empty_batch demoWorld demoProvider [1, 0] [] demoRequest rfl⟩

/-- C1, as the code has it: the info mapping of FetchMulti holds exactly the
normalized keys for which a fetch of the batch returned a nil error, each with
the FetchInfo of such a fetch, whose status is 200; a key each of whose fetches
in the batch failed in resolution or got a response of another status is absent
from it. -/
theorem C1_info_mapping_holds_successes_only (w : World) (p : remoteProvider)
    (sched : List Nat) (keys : List String) (r : Request) :
    ∃ res, (p.FetchMulti w sched keys r).1 = some res ∧
      (∀ k, k ∈ res.mn.keys ↔
        ∃ i, (i, k) ∈ (p.Provider.NormalizeMulti keys).enum ∧ (p.Fetch w i k r).1.err = none) ∧
      (∀ k, k ∈ res.mn.keys →
        ∃ i info, (i, k) ∈ (p.Provider.NormalizeMulti keys).enum ∧
          (p.Fetch w i k r).1.err = none ∧ (p.Fetch w i k r).1.n = some info ∧
          res.mn.get? k = some (some info) ∧ info.StatusCode = 200) ∧
      (∀ k,
        (∀ i, (i, k) ∈ (p.Provider.NormalizeMulti keys).enum →
          (∃ e, p.option.Resolver.Resolve i (p.Provider.Normalize (p.Provider.Normalize k)) r
              = .error e) ∨
          (∃ req resp,
            p.option.Resolver.Resolve i (p.Provider.Normalize (p.Provider.Normalize k)) r
              = .ok req ∧
            (p.option.httpClient w).Do i req = .ok resp ∧ resp.StatusCode ≠ 200)) →
        res.mn.get? k = none ∧ k ∉ res.mn.keys) := by
  obtain ⟨res, hres, hent, -, -, -, -⟩ := remoteProvider.FetchMulti_result w p sched keys r
  refine ⟨res, hres, ?_, ?_, ?_⟩
  · intro k
    exact (FetchMulti.keys_of_entry w p r _ res.mb res.mn k (hent k)).2
  · intro k hk
    rcases hent k with ⟨i, hi, he, -, hn⟩ | ⟨-, -, hn⟩
    · obtain ⟨info, body, hinfo, hs, -⟩ := remoteProvider.Fetch_success w p i k r he
      exact ⟨i, info, hi, he, hinfo, by rw [hn, hinfo], hs⟩
    · rw [GoMap.mem_keys_iff, hn] at hk
      exact absurd rfl hk
  · intro k hall
    have hfail : ∀ i, (i, k) ∈ (p.Provider.NormalizeMulti keys).enum →
        (p.Fetch w i k r).1.err ≠ none := by
      intro i hi
      rcases hall i hi with ⟨e, hr⟩ | ⟨req, resp, hr, hd, hs⟩
      · rw [remoteProvider.Fetch_resolve_error w p i k r e hr]
        exact fun c => Option.noConfusion c
      · rw [remoteProvider.Fetch_status w p i k r req resp hr hd hs]
        exact fun c => Option.noConfusion c
    rcases hent k with ⟨i, hi, he, -, -⟩ | ⟨-, -, hn⟩
    · exact absurd he (hfail i hi)
    · refine ⟨hn, ?_⟩
      rw [GoMap.mem_keys_iff, hn]
      exact fun c => c rfl

/-- C1, as stated, fails: in the batch a, b, c of the example provider the
response to b has status 500, Fetch returns a FetchInfo with that status for
b, and the info mapping of FetchMulti holds a and c only. -/
theorem C1_counterexample :
    (demoProvider.Fetch demoWorld 1 "b" demoRequest).1.n = some ⟨"http://origin/b", 500, 5⟩ ∧
    (demoProvider.FetchMulti demoWorld [] ["a", "b", "c"] demoRequest).1 =
      some ⟨[("a", some [1, 2, 3]), ("c", some [1, 2, 3])],
        [("a", some ⟨"http://origin/a", 200, 5⟩), ("c", some ⟨"http://origin/c", 200, 5⟩)],
        some ⟨[GoError.wrap (GoError.new "invalid http status: 500 Internal Server Error") "b"]⟩⟩ ∧
    ((demoProvider.FetchMulti demoWorld [1, 1, 0] ["a", "b", "c"] demoRequest).1.map
      (fun res => (res.mn.get? "b", res.mn.keys))) = some (none, ["c", "a"]) := by
  refine ⟨by decide, by decide, by decide⟩

/-- C2, as the code has it: the byte mapping of FetchMulti has as its keys
exactly the normalized keys for which a fetch of the batch returned a nil
error, each mapped to the body one such fetch returned, with the FetchInfo of
the same fetch in the info mapping; a key each of whose fetches in the batch
returned an error is absent from both mappings; and when the fetches of a key
in the batch all return the same (as for a key that occurs once), the entries of
the key are those of that fetch, whatever the fetches of the other keys do. -/
theorem C2_byte_mapping_of_successful_fetches (w : World) (p : remoteProvider)
    (sched : List Nat) (keys : List String) (r : Request) :
    ∃ res, (p.FetchMulti w sched keys r).1 = some res ∧
      (∀ k, k ∈ res.mb.keys ↔
        ∃ i, (i, k) ∈ (p.Provider.NormalizeMulti keys).enum ∧ (p.Fetch w i k r).1.err = none) ∧
      (∀ k, k ∈ res.mb.keys →
        ∃ i, (i, k) ∈ (p.Provider.NormalizeMulti keys).enum ∧
          (p.Fetch w i k r).1.err = none ∧
          res.mb.get? k = some (p.Fetch w i k r).1.b ∧
          res.mn.get? k = some (p.Fetch w i k r).1.n) ∧
      (∀ k,
        (∀ i, (i, k) ∈ (p.Provider.NormalizeMulti keys).enum →
          (p.Fetch w i k r).1.err ≠ none) →
        res.mb.get? k = none ∧ res.mn.get? k = none ∧ k ∉ res.mb.keys ∧ k ∉ res.mn.keys) ∧
      (∀ k i, (i, k) ∈ (p.Provider.NormalizeMulti keys).enum →
        (∀ j, (j, k) ∈ (p.Provider.NormalizeMulti keys).enum →
          (p.Fetch w j k r).1 = (p.Fetch w i k r).1) →
        res.mb.get? k =
          (if (p.Fetch w i k r).1.err = none then some (p.Fetch w i k r).1.b else none) ∧
        res.mn.get? k =
          (if (p.Fetch w i k r).1.err = none then some (p.Fetch w i k r).1.n else none)) := by
  obtain ⟨res, hres, hent, -, -, -, -⟩ := remoteProvider.FetchMulti_result w p sched keys r
  refine ⟨res, hres, ?_, ?_, ?_, ?_⟩
  · intro k
    exact (FetchMulti.keys_of_entry w p r _ res.mb res.mn k (hent k)).1
  · intro k hk
    rcases hent k with ⟨i, hi, he, hb, hn⟩ | ⟨-, hb, -⟩
    · exact ⟨i, hi, he, hb, hn⟩
    · rw [GoMap.mem_keys_iff, hb] at hk
      exact absurd rfl hk
  · intro k hall
    rcases hent k with ⟨i, hi, he, -, -⟩ | ⟨-, hb, hn⟩
    · exact absurd he (hall i hi)
    · refine ⟨hb, hn, ?_, ?_⟩
      · rw [GoMap.mem_keys_iff, hb]; exact fun c => c rfl
      · rw [GoMap.mem_keys_iff, hn]; exact fun c => c rfl
  · intro k i hi hsame
    rcases hent k with ⟨j, hj, he, hb, hn⟩ | ⟨hall, hb, hn⟩
    · rw [hsame j hj] at he hb hn
      rw [hb, hn, if_pos he, if_pos he]
      exact ⟨rfl, rfl⟩
    · rw [hb, hn, if_neg (hall i hi), if_neg (hall i hi)]
      exact ⟨rfl, rfl⟩

/-- C2, as stated, fails: in the batch flaky, flaky of the example provider
the fetch of the first key returns a nil error and the fetch of the second an
error, and the key is in both mappings and in the aggregate error. -/
theorem C2_counterexample :
    (demoProvider.Fetch demoWorld 0 "flaky" demoRequest).1.err = none ∧
    (demoProvider.Fetch demoWorld 1 "flaky" demoRequest).1.err =
      some (GoError.new "invalid http status: 500 Internal Server Error") ∧
    (demoProvider.FetchMulti demoWorld [] ["flaky", "flaky"] demoRequest).1 =
      some ⟨[("flaky", some [1, 2, 3])], [("flaky", some ⟨"http://origin/flaky", 200, 5⟩)],
        some ⟨[GoError.wrap (GoError.new "invalid http status: 500 Internal Server Error")
          "flaky"]⟩⟩ ∧
    (demoProvider.FetchMulti demoWorld [1] ["flaky", "flaky"] demoRequest).1 =
      some ⟨[("flaky", some [1, 2, 3])], [("flaky", some ⟨"http://origin/flaky", 200, 5⟩)],
        some ⟨[GoError.wrap (GoError.new "invalid http status: 500 Internal Server Error")
          "flaky"]⟩⟩ := by
  refine ⟨by decide, by decide, by decide, by decide⟩

/-- C3: the aggregate error of FetchMulti is nil exactly when the fetch of
every key of the batch returned a nil error; its causes are, in some order, one
per failing key of the batch, the error of that fetch wrapped with the
normalized key as its label, and the message of such a cause is the key, a
colon and the message of the error. -/
theorem C3_aggregate_error (w : World) (p : remoteProvider)
    (sched : List Nat) (keys : List String) (r : Request) :
    ∃ res, (p.FetchMulti w sched keys r).1 = some res ∧
      (res.err = none ↔
        ∀ i k, (i, k) ∈ (p.Provider.NormalizeMulti keys).enum → (p.Fetch w i k r).1.err = none) ∧
      (multierror.causes res.err).Perm
        ((p.Provider.NormalizeMulti keys).enum.filterMap
          (fun ik => errors.Wrap (p.Fetch w ik.1 ik.2 r).1.err ik.2)) ∧
      (∀ i k e, (p.Fetch w i k r).1.err = some e →
        errors.Wrap (p.Fetch w i k r).1.err k = some (GoError.wrap e k) ∧
        (GoError.wrap e k).Error = k ++ ": " ++ e.Error) := by
  obtain ⟨res, hres, -, -, -, hperm, hnil⟩ := remoteProvider.FetchMulti_result w p sched keys r
  refine ⟨res, hres, ?_, hperm, ?_⟩
  · have hall : (∀ ik ∈ (p.Provider.NormalizeMulti keys).enum,
          (p.Fetch w ik.1 ik.2 r).1.err = none) ↔
        ∀ i k, (i, k) ∈ (p.Provider.NormalizeMulti keys).enum → (p.Fetch w i k r).1.err = none :=
      ⟨fun h i k hik => h (i, k) hik, fun h ik hik => h ik.1 ik.2 hik⟩
    rw [hnil, ← hall,
      ← filterMap_Wrap_eq_nil (fun ik => (p.Fetch w ik.1 ik.2 r).1.err)]
    constructor
    · intro h
      rw [h] at hperm
      exact List.nil_perm.mp hperm
    · intro h
      rw [h] at hperm
      exact List.perm_nil.mp hperm
  · intro i k e he
    rw [he]
    exact ⟨rfl, rfl⟩

/-- C4, as the code has it: when the fetch of every key of a batch succeeds,
FetchMulti returns a nil error and two mappings with one entry per distinct
normalized key; that is one entry per key of the batch when NormalizeMulti
returns as many keys as it was given and no key twice. -/
theorem C4_all_succeed_sizes (w : World) (p : remoteProvider)
    (sched : List Nat) (keys : List String) (r : Request)
    (h : ∀ ik ∈ (p.Provider.NormalizeMulti keys).enum, (p.Fetch w ik.1 ik.2 r).1.err = none) :
    ∃ res, (p.FetchMulti w sched keys r).1 = some res ∧
      res.mb.len = (p.Provider.NormalizeMulti keys).dedup.length ∧
      res.mn.len = (p.Provider.NormalizeMulti keys).dedup.length ∧
      res.err = none ∧
      ((p.Provider.NormalizeMulti keys).Nodup →
        (p.Provider.NormalizeMulti keys).length = keys.length →
        res.mb.len = keys.length ∧ res.mn.len = keys.length) := by
  obtain ⟨res, hres, hent, hnb, hnn, hperm, hnil⟩ :=
    remoteProvider.FetchMulti_result w p sched keys r
  have hmem : ∀ k, (∃ i, (i, k) ∈ (p.Provider.NormalizeMulti keys).enum ∧
      (p.Fetch w i k r).1.err = none) ↔ k ∈ p.Provider.NormalizeMulti keys := by
    intro k
    constructor
    · rintro ⟨i, hi, -⟩
      exact List.snd_mem_of_mem_enum hi
    · intro hk
      obtain ⟨i, hi⟩ := exists_mem_enum_of_mem _ k hk
      exact ⟨i, hi, h (i, k) hi⟩
  have hb : res.mb.len = (p.Provider.NormalizeMulti keys).dedup.length := by
    apply GoMap.len_eq_of_mem_iff _ _ hnb
    intro k
    rw [(FetchMulti.keys_of_entry w p r _ res.mb res.mn k (hent k)).1, hmem]
  have hn : res.mn.len = (p.Provider.NormalizeMulti keys).dedup.length := by
    apply GoMap.len_eq_of_mem_iff _ _ hnn
    intro k
    rw [(FetchMulti.keys_of_entry w p r _ res.mb res.mn k (hent k)).2, hmem]
  refine ⟨res, hres, hb, hn, ?_, ?_⟩
  · rw [hnil]
    have := (filterMap_Wrap_eq_nil (fun ik => (p.Fetch w ik.1 ik.2 r).1.err) _).2 h
    rw [this] at hperm
    exact List.perm_nil.mp hperm
  · intro hnd hlen
    rw [hb, hn, List.Nodup.dedup hnd, hlen]
    exact ⟨rfl, rfl⟩

/-- C4, an instance: the batch a, c of the example provider. -/
theorem C4_all_succeed_sizes_witness :
    (∀ ik ∈ (demoProvider.Provider.NormalizeMulti ["a", "c"]).enum,
      (demoProvider.Fetch demoWorld ik.1 ik.2 demoRequest).1.err = none) ∧
    ∃ res, (demoProvider.FetchMulti demoWorld [1] ["a", "c"] demoRequest).1 = some res ∧
      res.mb.len = (demoProvider.Provider.NormalizeMulti ["a", "c"]).dedup.length ∧
      res.mn.len = (demoProvider.Provider.NormalizeMulti ["a", "c"]).dedup.length ∧
      res.err = none ∧
      ((demoProvider.Provider.NormalizeMulti ["a", "c"]).Nodup →
        (demoProvider.Provider.NormalizeMulti ["a", "c"]).length = ["a", "c"].length →
        res.mb.len = ["a", "c"].length ∧ res.mn.len = ["a", "c"].length) :=
  ⟨by decide, C4_all_succeed_sizes demoWorld demoProvider [1] ["a", "c"] demoRequest (by decide)⟩

/-- C4, as stated, fails: in the batch a, a of the example provider both
fetches succeed, the batch has two keys, and each mapping has one entry. -/
theorem C4_counterexample :
    (demoProvider.Fetch demoWorld 0 "a" demoRequest).1.err = none ∧
    (demoProvider.Fetch demoWorld 1 "a" demoRequest).1.err = none ∧
    (["a", "a"] : List String).length = 2 ∧
    demoProvider.Provider.NormalizeMulti ["a", "a"] = ["a", "a"] ∧
    (demoProvider.FetchMulti demoWorld [] ["a", "a"] demoRequest).1 =
      some ⟨[("a", some [1, 2, 3])], [("a", some ⟨"http://origin/a", 200, 5⟩)], none⟩ ∧
    ((demoProvider.FetchMulti demoWorld [] ["a", "a"] demoRequest).1.map
      (fun res => (res.mb.len, res.mn.len))) = some (1, 1) := by
  refine ⟨by decide, by decide, by decide, by decide, by decide, by decide⟩

/-- C8: every key of the byte mapping of FetchMulti is a key of the info
mapping, and the FetchInfo it is mapped to is not nil and has status 200. -/
theorem C8_byte_key_has_info_200 (w : World) (p : remoteProvider)
    (sched : List Nat) (keys : List String) (r : Request) :
    ∃ res, (p.FetchMulti w sched keys r).1 = some res ∧
      ∀ k, k ∈ res.mb.keys →
        k ∈ res.mn.keys ∧ ∃ info, res.mn.get? k = some (some info) ∧ info.StatusCode = 200 := by
  obtain ⟨res, hres, hent, -, -, -, -⟩ := remoteProvider.FetchMulti_result w p sched keys r
  refine ⟨res, hres, ?_⟩
  intro k hk
  rcases hent k with ⟨i, hi, he, -, hn⟩ | ⟨-, hb, -⟩
  · obtain ⟨info, body, hinfo, hs, -⟩ := remoteProvider.Fetch_success w p i k r he
    have hg : res.mn.get? k = some (some info) := by rw [hn, hinfo]
    refine ⟨?_, info, hg, hs⟩
    rw [GoMap.mem_keys_iff, hg]
    exact fun c => Option.noConfusion c
  · rw [GoMap.mem_keys_iff, hb] at hk
    exact absurd rfl hk

end cache
